import Mathlib

/-!
Verification of the BookclubJeopardy room protocol (src/app.js).

The app is a single-page Jeopardy game backed by a Firebase Realtime
Database document per room.  This file gives a shallow embedding of the
room document and of the operations that mutate it: clue opening
(onHostTileClick), answer reveal (the clueCard onclick handler), return
to board (returnToBoardAndMarkUsed), the buzz transaction (playerBuzz),
score adjustment (adjustScore and the award/penalty button handlers),
timer and buzz resets, and room creation with question-bank validation
(loadQuestions / createRoomAsHost).

Modelling conventions: JavaScript objects become structures, nullable
fields become Option, JavaScript truthiness of a string is an explicit
predicate (empty string is falsy), the Firebase server-timestamp
sentinel is an explicit constructor, and the linearizable transaction
on the buzz subtree is modelled by sequentially folding its update
function over an arbitrary arrival order of attempts.
-/

namespace BookclubJeopardy

/-- The room phase enum from app.js: board, question, answer. -/
inductive Phase
  | board
  | question
  | answer
deriving DecidableEq, Repr

/-- The buzz subtree of the room document: both fields nullable.  A fully
null record also stands for an absent subtree (Firebase deletes nodes
whose children are all null); the code never distinguishes the two. -/
structure BuzzState where
  firstBuzzTeam : Option String
  firstBuzzAt : Option Nat
deriving DecidableEq, Repr

/-- JavaScript truthiness of a nullable string: null and the empty string
are falsy, every other string is truthy. -/
def truthyStr : Option String → Bool
  | none => false
  | some s => s != ""

/-- The timer subtree: fixed duration in seconds and a nullable absolute
deadline in server-epoch milliseconds. -/
structure TimerState where
  durationSec : Nat
  endAtMs : Option Nat
deriving DecidableEq, Repr

/-- One team entry under teams/: display name and score. -/
structure TeamState where
  name : String
  score : Int
deriving DecidableEq, Repr

/-- The two fixed team identifiers. -/
inductive TeamId
  | team1
  | team2
deriving DecidableEq, Repr

/-- The room document (rooms/CODE).  boardUsed is modelled as the lookup
function of the stored object: absent keys read as false, matching the
falsy read of an undefined property in updateBoardUsedUI and
onHostTileClick.  createdAt and the players roster are presence metadata
the core logic never reads and are omitted. -/
structure Room where
  phase : Phase
  activeClueKey : Option String
  team1 : TeamState
  team2 : TeamState
  buzz : BuzzState
  timer : TimerState
  boardUsed : String → Bool

/-- The cleared buzz record written at clue-open and by resetBuzz. -/
def clearedBuzz : BuzzState := { firstBuzzTeam := none, firstBuzzAt := none }

/-- Clue key format from app.js: c{catIndex}_v{value}. -/
def clueKeyName (ci : Nat) (v : Int) : String :=
  "c" ++ toString ci ++ "_v" ++ toString v

/-- The five clue point values. -/
def clueValues : List Int := [100, 200, 300, 400, 500]

/-- The 25 clue keys of the 5 by 5 board, in the order the tiles and the
initial boardUsed object are generated (categories 0..4, each with the
five values). -/
def clueKeys : List String :=
  (List.range 5).flatMap fun ci => clueValues.map (clueKeyName ci)

/-- makeInitialBoardState from app.js: the 25-entry used-flag object, all
false, one entry per clue key. -/
def makeInitialBoardState : List (String × Bool) :=
  clueKeys.map fun k => (k, false)

/-- Reading a key from a stored object: the value if present, otherwise
the falsy default (an absent property reads as undefined). -/
def lookupBool (m : List (String × Bool)) (k : String) : Bool :=
  match m.find? (fun p => p.1 == k) with
  | some p => p.2
  | none => false

/-- One clue as stored in the board index built by buildBoardIndex. -/
structure Clue where
  ci : Nat
  value : Int
  question : String
  answer : String
  categoryTitle : String
deriving DecidableEq, Repr

/-- The initial room document written by createRoomAsHost (app.js lines
179 to 196): phase board, no active clue, both teams at score 0, null
buzz fields, a 20 second timer with no deadline, and all 25 used flags
false. -/
def initialRoom : Room :=
  { phase := Phase.board
    activeClueKey := none
    team1 := { name := "Team 1", score := 0 }
    team2 := { name := "Team 2", score := 0 }
    buzz := clearedBuzz
    timer := { durationSec := 20, endAtMs := none }
    boardUsed := lookupBool makeInitialBoardState }

/-- onHostTileClick from app.js: ignore used tiles, ignore clicks outside
the board phase, ignore keys with no board-index entry; otherwise one
partial update sets phase question, the active clue key, null buzz
fields, and the deadline now + durationSec * 1000.  For a bank passing
validation, the tiles rendered and the key set of the board index are
exactly clueKeys, so index membership is membership in clueKeys. -/
def onHostTileClick (now : Nat) (room : Room) (clueKey : String) : Room :=
  if room.boardUsed clueKey = true then room
  else if room.phase ≠ Phase.board then room
  else if clueKey ∈ clueKeys then
    { room with
      phase := Phase.question
      activeClueKey := some clueKey
      buzz := clearedBuzz
      timer := { room.timer with endAtMs := some (now + room.timer.durationSec * 1000) } }
  else room

/-- The Firebase server-timestamp sentinel
(firebase.database.ServerValue.TIMESTAMP). -/
inductive TimestampValue
  | serverTimestamp
deriving DecidableEq, Repr

/-- The record a successful buzz transaction writes: the buzzing team and
the server-timestamp sentinel, set together in one atomic step. -/
structure BuzzWrite where
  firstBuzzTeam : String
  firstBuzzAt : TimestampValue
deriving DecidableEq, Repr

/-- The update function of the buzz transaction (app.js lines 390 to
397): a null current value is replaced by an empty record; if
firstBuzzTeam is already truthy the function returns undefined, which
aborts the transaction; otherwise it returns the new record with the
team id and the server-timestamp sentinel.  Totality of this Lean
function is the no-throw totality of the JavaScript callback. -/
def buzzTransactionUpdate (teamId : String) (current : Option BuzzState) : Option BuzzWrite :=
  let cur := current.getD { firstBuzzTeam := none, firstBuzzAt := none }
  if truthyStr cur.firstBuzzTeam then none
  else some { firstBuzzTeam := teamId, firstBuzzAt := TimestampValue.serverTimestamp }

/-- The client-side eligibility gate of playerBuzz (app.js lines 383 to
386): a transaction is sent only when the locally observed phase is
question and the deadline is truthy and not yet passed on the
synchronized clock.  Note that the recorded winner is NOT consulted
here, although the comment above these lines promises it. -/
def playerBuzzGate (now : Nat) (room : Room) : Bool :=
  if room.phase ≠ Phase.question then false
  else
    match room.timer.endAtMs with
    | none => false
    | some endAt => now < endAt

/-- The buzz-button enabled condition from updatePlayerBuzzButton (app.js
lines 406 to 410): question phase, deadline truthy and in the future,
and nobody has buzzed yet. -/
def buzzButtonEnabled (now : Nat) (room : Room) : Bool :=
  (room.phase == Phase.question) &&
  (match room.timer.endAtMs with
   | none => false
   | some endAt => now < endAt) &&
  !(truthyStr room.buzz.firstBuzzTeam)

/-- Effect of one committed-or-aborted buzz transaction on the buzz
subtree, with the server resolving the timestamp sentinel to ts.  An
abort leaves the subtree unchanged. -/
def applyBuzzAttempt (s : BuzzState) (team : String) (ts : Nat) : BuzzState :=
  match buzzTransactionUpdate team (some s) with
  | none => s
  | some w => { firstBuzzTeam := some w.firstBuzzTeam, firstBuzzAt := some ts }

/-- playerBuzz as observed on the room document: gate, then transaction
on the buzz subtree.  now is the synchronized client clock, ts the
server time assigned to a committed write. -/
def playerBuzz (team : String) (now ts : Nat) (room : Room) : Room :=
  if playerBuzzGate now room then
    { room with buzz := applyBuzzAttempt room.buzz team ts }
  else room

/-- All buzz-subtree states a subscriber can observe during one question
cycle: the cleared state written at clue-open, followed by the state
after each transaction in the linearization order the store assigns to
the concurrent attempts (team, server time). -/
def buzzTrace (attempts : List (String × Nat)) : List BuzzState :=
  attempts.scanl (fun s a => applyBuzzAttempt s a.1 a.2) clearedBuzz

/-- The clueCard onclick handler (app.js lines 499 to 510): if the room
phase is question, one partial update sets phase answer; otherwise
nothing is written.  Per the design notes, the enclosing openClueModal
guard is structurally defective in the source and the intended
installation of this handler is taken as specification; the handler
body itself is modelled verbatim. -/
def clueCardOnClick (room : Room) : Room :=
  if room.phase = Phase.question then { room with phase := Phase.answer } else room

/-- returnToBoardAndMarkUsed from app.js: a no-op when the active clue
key is falsy (null or empty); otherwise one atomic partial update marks
the key used, returns the phase to board, nulls the active clue key,
the deadline and both buzz fields. -/
def returnToBoardAndMarkUsed (room : Room) : Room :=
  match room.activeClueKey with
  | none => room
  | some key =>
    if key = "" then room
    else
      { room with
        boardUsed := fun k => if k = key then true else room.boardUsed k
        phase := Phase.board
        activeClueKey := none
        timer := { room.timer with endAtMs := none }
        buzz := clearedBuzz }

/-- resetBuzz from app.js: nulls both buzz fields. -/
def resetBuzz (room : Room) : Room :=
  { room with buzz := clearedBuzz }

/-- resetTimer from app.js: in the question phase a fresh deadline is
derived from the synchronized clock, otherwise the deadline is cleared. -/
def resetTimer (now : Nat) (room : Room) : Room :=
  if room.phase = Phase.question then
    { room with timer := { room.timer with endAtMs := some (now + room.timer.durationSec * 1000) } }
  else
    { room with timer := { room.timer with endAtMs := none } }

/-- The update function of the score transaction in adjustScore (app.js
line 454): (cur || 0) + delta.  A null current value and a current value
of 0 both read as 0. -/
def scoreTxn (cur : Option Int) (delta : Int) : Int :=
  cur.getD 0 + delta

/-- adjustScore from app.js: an atomic increment of one team score via
the score transaction. -/
def adjustScore (teamId : TeamId) (delta : Int) (room : Room) : Room :=
  match teamId with
  | TeamId.team1 =>
    { room with team1 := { room.team1 with score := scoreTxn (some room.team1.score) delta } }
  | TeamId.team2 =>
    { room with team2 := { room.team2 with score := scoreTxn (some room.team2.score) delta } }

/-- The delta read by the award and penalty button handlers (app.js lines
696 to 711): the value of the locally held active clue, defaulting to 0
when none is held. -/
def awardDelta (activeClue : Option Clue) : Int :=
  match activeClue with
  | some c => c.value
  | none => 0

/-- btnAwardT1 / btnAwardT2 handler: award the active clue value. -/
def btnAward (teamId : TeamId) (activeClue : Option Clue) (room : Room) : Room :=
  adjustScore teamId (awardDelta activeClue) room

/-- btnPenaltyT1 / btnPenaltyT2 handler: subtract the active clue value. -/
def btnPenalty (teamId : TeamId) (activeClue : Option Clue) (room : Room) : Room :=
  adjustScore teamId (-(awardDelta activeClue)) room

/-- Read one team score from a room. -/
def scoreOf (room : Room) (t : TeamId) : Int :=
  match t with
  | TeamId.team1 => room.team1.score
  | TeamId.team2 => room.team2.score

/-- One clue record of the external question bank (questions.json). -/
structure ClueJson where
  value : Int
  question : String
  answer : String
deriving DecidableEq, Repr

/-- One category of the question bank: a title and its clue list. -/
structure CategoryJson where
  title : String
  clues : List ClueJson
deriving DecidableEq, Repr

/-- The question bank as loaded from questions.json. -/
structure QuestionBank where
  categories : List CategoryJson
deriving DecidableEq, Repr

/-- Insert a value into an ascending list, keeping it ascending. -/
def insertSorted (v : Int) : List Int → List Int
  | [] => [v]
  | x :: xs => if v ≤ x then v :: x :: xs else x :: insertSorted v xs

/-- Ascending numeric sort, modelling the JavaScript
sort((a,b) => a-b) applied to the clue values of one category. -/
def sortValues (l : List Int) : List Int :=
  l.foldr insertSorted []

/-- The per-clue check of loadQuestions (app.js lines 137 to 139): a
falsy (empty) question or answer string raises the error. -/
def validateClueList : List ClueJson → Except String Unit
  | [] => Except.ok ()
  | clue :: rest =>
    if clue.question = "" ∨ clue.answer = "" then
      Except.error "Each clue needs question and answer"
    else validateClueList rest

/-- The per-category loop of loadQuestions (app.js lines 129 to 140): a
falsy title or a clue count other than 5 raises the first error; a
sorted value list other than 100,200,300,400,500 raises the second
(the source compares the comma-joined sorted values against the literal
string, which holds exactly when the sorted list is this list); then
every clue is checked.  Categories are checked in order and the first
failure aborts. -/
def validateCategories : List CategoryJson → Except String Unit
  | [] => Except.ok ()
  | c :: rest =>
    if c.title = "" ∨ c.clues.length ≠ 5 then
      Except.error "Each category must have a title and exactly 5 clues"
    else if sortValues (c.clues.map (fun x => x.value)) ≠ [100, 200, 300, 400, 500] then
      Except.error "Each category must have clue values 100,200,300,400,500"
    else
      match validateClueList c.clues with
      | Except.error e => Except.error e
      | Except.ok _ => validateCategories rest

/-- loadQuestions from app.js (validation part; the fetch itself is an
external collaborator): exactly 5 categories, then the per-category
checks.  Returns the bank unchanged on success. -/
def loadQuestions (data : QuestionBank) : Except String QuestionBank :=
  if data.categories.length ≠ 5 then
    Except.error "questions.json must contain exactly 5 categories"
  else
    match validateCategories data.categories with
    | Except.error e => Except.error e
    | Except.ok _ => Except.ok data

/-- createRoomAsHost from app.js: loadQuestions is awaited before any
store write, so a validation error propagates and nothing is written;
on success the full initial document is written in one set. -/
def createRoomAsHost (bank : QuestionBank) : Except String Room :=
  match loadQuestions bank with
  | Except.error e => Except.error e
  | Except.ok _ => Except.ok initialRoom

/-- The validation conditions exactly as the specification words them:
exactly 5 categories; each category exactly 5 clues whose value multiset
is exactly 100,200,300,400,500; every clue with non-empty question and
answer.  Note: no condition on the category title. -/
def specValidBank (b : QuestionBank) : Prop :=
  b.categories.length = 5 ∧
  ∀ c ∈ b.categories,
    c.clues.length = 5 ∧
    sortValues (c.clues.map (fun x => x.value)) = [100, 200, 300, 400, 500] ∧
    ∀ cl ∈ c.clues, cl.question ≠ "" ∧ cl.answer ≠ ""

/-- The conditions the source validation actually enforces: the
specification conditions plus a non-empty (truthy) title per category. -/
def codeValidBank (b : QuestionBank) : Prop :=
  b.categories.length = 5 ∧
  ∀ c ∈ b.categories,
    c.title ≠ "" ∧
    c.clues.length = 5 ∧
    sortValues (c.clues.map (fun x => x.value)) = [100, 200, 300, 400, 500] ∧
    ∀ cl ∈ c.clues, cl.question ≠ "" ∧ cl.answer ≠ ""

/-- The core operations that mutate an existing room document. -/
inductive Op
  | openClue (now : Nat) (key : String)
  | reveal
  | returnToBoard
  | buzz (team : String) (now ts : Nat)
  | score (teamId : TeamId) (delta : Int)
  | resetBuzz
  | resetTimer (now : Nat)

/-- Interpretation of one core operation on the room document. -/
def applyOp (op : Op) (room : Room) : Room :=
  match op with
  | Op.openClue now key => onHostTileClick now room key
  | Op.reveal => clueCardOnClick room
  | Op.returnToBoard => returnToBoardAndMarkUsed room
  | Op.buzz team now ts => playerBuzz team now ts room
  | Op.score teamId delta => adjustScore teamId delta room
  | Op.resetBuzz => resetBuzz room
  | Op.resetTimer now => resetTimer now room

/-- A sequence of core operations applied in store linearization order. -/
def applyOps (ops : List Op) (room : Room) : Room :=
  ops.foldl (fun r op => applyOp op r) room

/-- A well-formed clue list with the five required values. -/
def goodClues : List ClueJson :=
  [ { value := 100, question := "q1", answer := "a1" },
    { value := 200, question := "q2", answer := "a2" },
    { value := 300, question := "q3", answer := "a3" },
    { value := 400, question := "q4", answer := "a4" },
    { value := 500, question := "q5", answer := "a5" } ]

/-- A question bank passing every source validation check. -/
def goodBank : QuestionBank :=
  { categories := List.replicate 5 { title := "T", clues := goodClues } }

/-- A question bank meeting every condition the specification lists for
validation, but with empty (falsy) category titles, which the source
validation rejects. -/
def emptyTitleBank : QuestionBank :=
  { categories := List.replicate 5 { title := "", clues := goodClues } }

/-- The room document right after the host opens clue c0_v100 at
synchronized time 1000 in a fresh room. -/
def questionRoomExample : Room :=
  onHostTileClick 1000 initialRoom "c0_v100"

/-- The room document after the host then reveals the answer. -/
def answerRoomExample : Room :=
  clueCardOnClick questionRoomExample

/-- A room a player can locally observe: question phase, deadline 20000
still in the future, and a recorded buzz winner. -/
def staleBuzzRoom : Room :=
  { initialRoom with
    phase := Phase.question
    activeClueKey := some "c0_v100"
    timer := { durationSec := 20, endAtMs := some 20000 }
    buzz := { firstBuzzTeam := some "team1", firstBuzzAt := some 500 } }

/-- The room after the host returns clue c0_v100 to the board. -/
def usedRoomExample : Room :=
  returnToBoardAndMarkUsed questionRoomExample

/-- One concrete board-index clue. -/
def exampleClue : Clue :=
  { ci := 2, value := 300, question := "q", answer := "a", categoryTitle := "T" }

/-- The coupling invariant between phase and active clue key, with the
strengthening (a stored key is a real, non-empty clue key) needed for it
to be inductive under the core operations. -/
def phaseClueInv (room : Room) : Prop :=
  match room.activeClueKey with
  | none => room.phase = Phase.board
  | some k => room.phase ≠ Phase.board ∧ k ≠ ""

/-!  Theorems.  Each claim of the specification gets one theorem below;
helper lemmas are shared and carry no claim names.  -/

/-- Every clue key of the board is a non-empty string. -/
theorem clueKeys_ne_empty : ∀ k ∈ clueKeys, k ≠ "" := by decide

/-- C10: the buzz transaction update function is total over every
possible current value of the buzz subtree, a null current value being
replaced by an empty record; it aborts (returns no value) exactly when
firstBuzzTeam is already set to a truthy value, and otherwise returns a
record whose firstBuzzTeam is the buzzing team identifier and whose
firstBuzzAt is the server-timestamp sentinel. -/
theorem buzz_transaction_totality (teamId : String) (current : Option BuzzState) :
    buzzTransactionUpdate teamId none = buzzTransactionUpdate teamId (some clearedBuzz)
  ∧ ((buzzTransactionUpdate teamId current = none ∧
        truthyStr ((current.getD clearedBuzz).firstBuzzTeam) = true) ∨
     (truthyStr ((current.getD clearedBuzz).firstBuzzTeam) = false ∧
        buzzTransactionUpdate teamId current =
          some { firstBuzzTeam := teamId, firstBuzzAt := TimestampValue.serverTimestamp })) := by
  refine ⟨rfl, ?_⟩
  unfold buzzTransactionUpdate
  cases current with
  | none => right; exact ⟨rfl, rfl⟩
  | some s =>
    cases h : truthyStr s.firstBuzzTeam with
    | true => left; simp [Option.getD, h]
    | false => right; simp [Option.getD, h]

/-- C3: evaluation of playerBuzz at the failing input staleBuzzRoom: the
locally observed room is in the question phase with the deadline ahead
of the synchronized clock, and a winner is already recorded, yet the
playerBuzz gate passes and the transaction is sent; the transaction
itself then aborts, leaving the room unchanged, and the separate
buzz-button enabled computation (updatePlayerBuzzButton) does consult
the recorded winner. -/
theorem playerBuzz_sends_despite_recorded_winner :
    truthyStr staleBuzzRoom.buzz.firstBuzzTeam = true
  ∧ playerBuzzGate 1000 staleBuzzRoom = true
  ∧ buzzTransactionUpdate "team2" (some staleBuzzRoom.buzz) = none
  ∧ playerBuzz "team2" 1000 1500 staleBuzzRoom = staleBuzzRoom
  ∧ buzzButtonEnabled 1000 staleBuzzRoom = false :=
  ⟨by decide, by decide, by decide, by rfl, by decide⟩

/-- C5: the answer reveal (clueCard onclick) sets phase to answer when
the phase is question and leaves every other field of the room document
unchanged; when the phase is not question it changes nothing. -/
theorem reveal_answer_frame (room : Room) :
    (room.phase = Phase.question →
      (clueCardOnClick room).phase = Phase.answer
      ∧ (clueCardOnClick room).activeClueKey = room.activeClueKey
      ∧ (clueCardOnClick room).team1 = room.team1
      ∧ (clueCardOnClick room).team2 = room.team2
      ∧ (clueCardOnClick room).buzz = room.buzz
      ∧ (clueCardOnClick room).timer = room.timer
      ∧ (clueCardOnClick room).boardUsed = room.boardUsed)
  ∧ (room.phase ≠ Phase.question → clueCardOnClick room = room) := by
  constructor
  · intro h
    simp [clueCardOnClick, h]
  · intro h
    simp [clueCardOnClick, h]

/-- Witness for C5 at concrete rooms in the question and answer phase. -/
theorem reveal_answer_frame_witness :
    ((clueCardOnClick questionRoomExample).phase = Phase.answer
      ∧ (clueCardOnClick questionRoomExample).buzz = questionRoomExample.buzz)
  ∧ clueCardOnClick answerRoomExample = answerRoomExample := by
  have h1 := (reveal_answer_frame questionRoomExample).1 (by decide)
  have h2 := (reveal_answer_frame answerRoomExample).2 (by decide)
  exact ⟨⟨h1.1, h1.2.2.2.2.1⟩, h2⟩

/-- C2: opening a clue succeeds only when the phase is board and the key
is unused, in which case one update sets phase question, the active clue
key, null buzz fields and the deadline now + durationSec * 1000; when
the key is already used, or the phase is not board, the operation leaves
the room unchanged. -/
theorem open_clue_transition (now : Nat) (room : Room) (key : String) :
    (room.phase = Phase.board → room.boardUsed key = false → key ∈ clueKeys →
      onHostTileClick now room key =
        { room with
          phase := Phase.question
          activeClueKey := some key
          buzz := clearedBuzz
          timer := { room.timer with endAtMs := some (now + room.timer.durationSec * 1000) } })
  ∧ (room.boardUsed key = true → onHostTileClick now room key = room)
  ∧ (room.phase ≠ Phase.board → onHostTileClick now room key = room) := by
  refine ⟨?_, ?_, ?_⟩
  · intro hphase hused hmem
    simp [onHostTileClick, hused, hphase, hmem]
  · intro hused
    simp [onHostTileClick, hused]
  · intro hphase
    by_cases hused : room.boardUsed key = true
    · simp [onHostTileClick, hused]
    · simp [onHostTileClick, hused, hphase]

/-- Witness for C2: opening c0_v100 in a fresh room at time 1000. -/
theorem open_clue_transition_witness :
    onHostTileClick 1000 initialRoom "c0_v100" =
      { initialRoom with
        phase := Phase.question
        activeClueKey := some "c0_v100"
        buzz := clearedBuzz
        timer := { initialRoom.timer with
                   endAtMs := some (1000 + initialRoom.timer.durationSec * 1000) } } :=
  (open_clue_transition 1000 initialRoom "c0_v100").1 (by decide) (by decide) (by decide)

/-- C4: returning to the board with a truthy active clue key marks that
key used and, in the same atomic partial update, sets phase board, nulls
the active clue key, the deadline and both buzz fields, regardless of
the current phase; the timer duration, the teams and every other used
flag are untouched. -/
theorem return_to_board_effects (room : Room) (key : String)
    (hkey : room.activeClueKey = some key) (hne : key ≠ "") :
    (returnToBoardAndMarkUsed room).boardUsed key = true
  ∧ (returnToBoardAndMarkUsed room).phase = Phase.board
  ∧ (returnToBoardAndMarkUsed room).activeClueKey = none
  ∧ (returnToBoardAndMarkUsed room).timer.endAtMs = none
  ∧ (returnToBoardAndMarkUsed room).buzz = clearedBuzz
  ∧ (returnToBoardAndMarkUsed room).timer.durationSec = room.timer.durationSec
  ∧ (returnToBoardAndMarkUsed room).team1 = room.team1
  ∧ (returnToBoardAndMarkUsed room).team2 = room.team2
  ∧ ∀ k, k ≠ key → (returnToBoardAndMarkUsed room).boardUsed k = room.boardUsed k := by
  unfold returnToBoardAndMarkUsed
  rw [hkey]
  simp only [hne, if_neg]
  refine ⟨by simp, rfl, rfl, rfl, rfl, rfl, rfl, rfl, ?_⟩
  intro k hk
  simp [hk]

/-- Witness for C4: returning from the opened clue c0_v100. -/
theorem return_to_board_effects_witness :
    (returnToBoardAndMarkUsed questionRoomExample).boardUsed "c0_v100" = true
  ∧ (returnToBoardAndMarkUsed questionRoomExample).phase = Phase.board
  ∧ (returnToBoardAndMarkUsed questionRoomExample).activeClueKey = none
  ∧ (returnToBoardAndMarkUsed questionRoomExample).timer.endAtMs = none := by
  have h := return_to_board_effects questionRoomExample "c0_v100" (by decide) (by decide)
  exact ⟨h.1, h.2.1, h.2.2.1, h.2.2.2.1⟩

/-- C8: with an active clue held locally, the award handlers apply
exactly the clue point value and the penalty handlers exactly its
negation to the chosen team via the atomic score transaction
new = (current, defaulting to 0 when absent) + delta; the other team is
untouched. -/
theorem score_delta_source (room : Room) (clue : Clue) (teamId : TeamId)
    (hval : clue.value ∈ clueValues) :
    scoreOf (btnAward teamId (some clue) room) teamId = scoreOf room teamId + clue.value
  ∧ scoreOf (btnPenalty teamId (some clue) room) teamId = scoreOf room teamId - clue.value
  ∧ awardDelta (some clue) ∈ clueValues
  ∧ (∀ other, other ≠ teamId →
      scoreOf (btnAward teamId (some clue) room) other = scoreOf room other
      ∧ scoreOf (btnPenalty teamId (some clue) room) other = scoreOf room other)
  ∧ (∀ cur delta, scoreTxn cur delta = cur.getD 0 + delta) := by
  refine ⟨?_, ?_, hval, ?_, fun cur delta => rfl⟩
  · cases teamId <;> simp [btnAward, adjustScore, scoreOf, scoreTxn, awardDelta]
  · cases teamId <;>
      simp [btnPenalty, adjustScore, scoreOf, scoreTxn, awardDelta, sub_eq_add_neg]
  · intro other hother
    cases teamId <;> cases other <;>
      simp_all [btnAward, btnPenalty, adjustScore, scoreOf]

/-- Witness for C8: awarding then penalizing 300 points to team 1. -/
theorem score_delta_source_witness :
    scoreOf (btnAward TeamId.team1 (some exampleClue) initialRoom) TeamId.team1 =
      scoreOf initialRoom TeamId.team1 + exampleClue.value
  ∧ scoreOf (btnPenalty TeamId.team1 (some exampleClue) initialRoom) TeamId.team1 =
      scoreOf initialRoom TeamId.team1 - exampleClue.value := by
  have h := score_delta_source initialRoom exampleClue TeamId.team1 (by decide)
  exact ⟨h.1, h.2.1⟩

/-- The per-attempt stability of the buzz subtree: a truthy recorded
winner makes every later transaction abort, leaving the subtree
unchanged. -/
theorem applyBuzzAttempt_of_truthy (s : BuzzState) (team : String) (ts : Nat)
    (h : truthyStr s.firstBuzzTeam = true) : applyBuzzAttempt s team ts = s := by
  unfold applyBuzzAttempt buzzTransactionUpdate
  simp [Option.getD, h]

/-- Folding further buzz attempts over a subtree with a truthy winner
only replicates the current state. -/
theorem scanl_buzz_stable (s : BuzzState) (h : truthyStr s.firstBuzzTeam = true) :
    ∀ l : List (String × Nat),
      l.scanl (fun s2 a => applyBuzzAttempt s2 a.1 a.2) s = List.replicate (l.length + 1) s := by
  intro l
  induction l with
  | nil => simp
  | cons a l ih =>
    simp [List.scanl, applyBuzzAttempt_of_truthy s a.1 a.2 h, ih, List.replicate_succ]

/-- C1: buzz exclusivity.  For every linearization of the concurrent
buzz attempts of one question cycle (first attempt by a real, non-empty
team identifier), the observable trace of the buzz subtree is the
cleared state followed only by copies of the single record set by the
first attempt, whose two fields are set together in that one step; any
transaction arriving at a subtree with a truthy winner aborts without
effect; and the next clue-open writes the cleared record again. -/
theorem buzz_exclusivity (t : String) (ts : Nat) (rest : List (String × Nat))
    (ht : t ≠ "") :
    buzzTrace ((t, ts) :: rest) =
      clearedBuzz ::
        List.replicate (rest.length + 1) { firstBuzzTeam := some t, firstBuzzAt := some ts }
  ∧ (∀ s team ts2, truthyStr s.firstBuzzTeam = true → applyBuzzAttempt s team ts2 = s)
  ∧ (∀ now room key, room.phase = Phase.board → room.boardUsed key = false →
      key ∈ clueKeys → (onHostTileClick now room key).buzz = clearedBuzz) := by
  refine ⟨?_, fun s team ts2 h => applyBuzzAttempt_of_truthy s team ts2 h, ?_⟩
  · have hfirst : applyBuzzAttempt clearedBuzz t ts =
        { firstBuzzTeam := some t, firstBuzzAt := some ts } := by
      simp [applyBuzzAttempt, buzzTransactionUpdate, clearedBuzz, truthyStr]
    have htruthy : truthyStr (some t) = true := by simp [truthyStr, ht]
    unfold buzzTrace
    rw [List.scanl]
    rw [hfirst]
    rw [scanl_buzz_stable _ htruthy rest]
  · intro now room key hphase hused hmem
    simp [onHostTileClick, hphase, hused, hmem, clearedBuzz]

/-- Witness for C1: team1 then team2 buzzing in one cycle. -/
theorem buzz_exclusivity_witness :
    buzzTrace [("team1", 5), ("team2", 6)] =
      clearedBuzz ::
        List.replicate 2 { firstBuzzTeam := some "team1", firstBuzzAt := some 5 } :=
  (buzz_exclusivity "team1" 5 [("team2", 6)] (by decide)).1

/-- No single core operation ever clears a used flag. -/
theorem boardUsed_mono_step (op : Op) (room : Room) (k : String)
    (h : room.boardUsed k = true) : (applyOp op room).boardUsed k = true := by
  cases op with
  | openClue now key =>
    simp only [applyOp, onHostTileClick]
    split
    · exact h
    split
    · exact h
    split
    · exact h
    · exact h
  | reveal =>
    simp only [applyOp, clueCardOnClick]
    split
    · exact h
    · exact h
  | returnToBoard =>
    simp only [applyOp, returnToBoardAndMarkUsed]
    cases hk : room.activeClueKey with
    | none => simp only [hk]; exact h
    | some key =>
      simp only [hk]
      split
      · exact h
      · by_cases hkey : k = key
        · simp [hkey]
        · simp [hkey, h]
  | buzz team now ts =>
    simp only [applyOp, playerBuzz]
    split
    · exact h
    · exact h
  | score teamId delta =>
    cases teamId <;> exact h
  | resetBuzz => exact h
  | resetTimer now =>
    simp only [applyOp, resetTimer]
    split
    · exact h
    · exact h

/-- C7: board monotonicity.  Once a used flag is true in a room state,
it stays true in the state produced by any sequence of core operations:
no operation ever resets a used flag to false. -/
theorem board_monotonicity (ops : List Op) (room : Room) (k : String)
    (h : room.boardUsed k = true) : (applyOps ops room).boardUsed k = true := by
  induction ops generalizing room with
  | nil => exact h
  | cons op ops ih => exact ih (applyOp op room) (boardUsed_mono_step op room k h)

/-- Witness for C7: c0_v100 stays used across further operations. -/
theorem board_monotonicity_witness :
    (applyOps [Op.resetBuzz, Op.openClue 2000 "c1_v200", Op.returnToBoard]
        usedRoomExample).boardUsed "c0_v100" = true :=
  board_monotonicity [Op.resetBuzz, Op.openClue 2000 "c1_v200", Op.returnToBoard]
    usedRoomExample "c0_v100" (by decide)

/-- The coupling invariant is preserved by every core operation. -/
theorem phaseClueInv_step (op : Op) (room : Room) (h : phaseClueInv room) :
    phaseClueInv (applyOp op room) := by
  cases op with
  | openClue now key =>
    simp only [applyOp, onHostTileClick]
    split
    · exact h
    split
    · exact h
    split
    · rename_i hmem
      exact ⟨by simp [phaseClueInv], clueKeys_ne_empty key hmem⟩
    · exact h
  | reveal =>
    simp only [applyOp, clueCardOnClick]
    split
    · rename_i hq
      unfold phaseClueInv at h ⊢
      cases hk : room.activeClueKey with
      | none => rw [hk] at h; rw [hq] at h; cases h
      | some k =>
        rw [hk] at h
        exact ⟨by simp, h.2⟩
    · exact h
  | returnToBoard =>
    simp only [applyOp, returnToBoardAndMarkUsed]
    cases hk : room.activeClueKey with
    | none => simp only [hk]; exact h
    | some key =>
      simp only [hk]
      split
      · exact h
      · simp [phaseClueInv]
  | buzz team now ts =>
    simp only [applyOp, playerBuzz]
    split
    · exact h
    · exact h
  | score teamId delta =>
    cases teamId <;> exact h
  | resetBuzz => exact h
  | resetTimer now =>
    simp only [applyOp, resetTimer]
    split
    · exact h
    · exact h

/-- The coupling invariant propagates through any operation sequence. -/
theorem phaseClueInv_fold (ops : List Op) (room : Room) (h : phaseClueInv room) :
    phaseClueInv (applyOps ops room) := by
  induction ops generalizing room with
  | nil => exact h
  | cons op ops ih => exact ih (applyOp op room) (phaseClueInv_step op room h)

/-- The coupling invariant holds in every state reachable from the
initial document. -/
theorem phaseClueInv_reachable (ops : List Op) :
    phaseClueInv (applyOps ops initialRoom) :=
  phaseClueInv_fold ops initialRoom rfl

/-- C6: in every room state reachable from the initial document by the
core operations, the active clue key is non-null exactly when the phase
is not board (that is, when the phase is question or answer). -/
theorem phase_clue_coupling (ops : List Op) :
    (applyOps ops initialRoom).activeClueKey ≠ none ↔
      (applyOps ops initialRoom).phase ≠ Phase.board := by
  have h := phaseClueInv_reachable ops
  unfold phaseClueInv at h
  cases hk : (applyOps ops initialRoom).activeClueKey with
  | none =>
    rw [hk] at h
    simp [hk, h]
  | some k =>
    rw [hk] at h
    simp [hk, h.1]

/-- The per-clue validator accepts exactly the lists whose clues all
have non-empty question and answer text. -/
theorem validateClueList_ok_iff (cs : List ClueJson) :
    validateClueList cs = Except.ok () ↔
      ∀ cl ∈ cs, cl.question ≠ "" ∧ cl.answer ≠ "" := by
  induction cs with
  | nil => simp [validateClueList]
  | cons c cs ih =>
    unfold validateClueList
    by_cases hc : c.question = "" ∨ c.answer = ""
    · rw [if_pos hc]
      constructor
      · intro habs
        simp at habs
      · intro hall
        rcases hc with hq | ha
        · exact absurd hq (hall c (List.mem_cons_self c cs)).1
        · exact absurd ha (hall c (List.mem_cons_self c cs)).2
    · rw [if_neg hc]
      push_neg at hc
      rw [ih]
      constructor
      · intro hrest cl hcl
        rcases List.mem_cons.mp hcl with heq | hmem
        · rw [heq]; exact hc
        · exact hrest cl hmem
      · intro hall cl hcl
        exact hall cl (List.mem_cons_of_mem c hcl)

/-- Any error of the per-clue validator carries a non-empty message. -/
theorem validateClueList_error_ne (cs : List ClueJson) (e : String)
    (h : validateClueList cs = Except.error e) : e ≠ "" := by
  induction cs with
  | nil => simp [validateClueList] at h
  | cons c cs ih =>
    unfold validateClueList at h
    by_cases hc : c.question = "" ∨ c.answer = ""
    · rw [if_pos hc] at h
      injection h with h2
      rw [← h2]
      decide
    · rw [if_neg hc] at h
      exact ih h

/-- The per-category validator accepts exactly the lists whose
categories all have a non-empty title, exactly 5 clues sorting to the
value list 100,200,300,400,500, and clue texts that are non-empty. -/
theorem validateCategories_ok_iff (cs : List CategoryJson) :
    validateCategories cs = Except.ok () ↔
      ∀ c ∈ cs, c.title ≠ "" ∧ c.clues.length = 5 ∧
        sortValues (c.clues.map (fun x => x.value)) = [100, 200, 300, 400, 500] ∧
        ∀ cl ∈ c.clues, cl.question ≠ "" ∧ cl.answer ≠ "" := by
  induction cs with
  | nil => simp [validateCategories]
  | cons c cs ih =>
    unfold validateCategories
    by_cases h1 : c.title = "" ∨ c.clues.length ≠ 5
    · rw [if_pos h1]
      constructor
      · intro habs
        simp at habs
      · intro hall
        rcases h1 with ht | hl
        · exact absurd ht (hall c (List.mem_cons_self c cs)).1
        · exact absurd (hall c (List.mem_cons_self c cs)).2.1 hl
    · rw [if_neg h1]
      push_neg at h1
      by_cases h2 : sortValues (c.clues.map (fun x => x.value)) ≠ [100, 200, 300, 400, 500]
      · rw [if_pos h2]
        constructor
        · intro habs
          simp at habs
        · intro hall
          exact absurd (hall c (List.mem_cons_self c cs)).2.2.1 h2
      · rw [if_neg h2]
        push_neg at h2
        cases hcl : validateClueList c.clues with
        | error e =>
          simp only [hcl]
          constructor
          · intro habs
            simp at habs
          · intro hall
            have hok : validateClueList c.clues = Except.ok () :=
              (validateClueList_ok_iff c.clues).mpr (hall c (List.mem_cons_self c cs)).2.2.2
            rw [hcl] at hok
            simp at hok
          | ok u =>
            cases u
            simp only [hcl]
            rw [ih]
            constructor
            · intro hrest c2 hc2
              rcases List.mem_cons.mp hc2 with heq | hmem
              · rw [heq]
                exact ⟨h1.1, h1.2, h2, (validateClueList_ok_iff c.clues).mp hcl⟩
              · exact hrest c2 hmem
            · intro hall c2 hc2
              exact hall c2 (List.mem_cons_of_mem c hc2)

/-- Any error of the per-category validator carries a non-empty
message. -/
theorem validateCategories_error_ne (cs : List CategoryJson) (e : String)
    (h : validateCategories cs = Except.error e) : e ≠ "" := by
  induction cs with
  | nil => simp [validateCategories] at h
  | cons c cs ih =>
    unfold validateCategories at h
    by_cases h1 : c.title = "" ∨ c.clues.length ≠ 5
    · rw [if_pos h1] at h
      injection h with h2
      rw [← h2]
      decide
    · rw [if_neg h1] at h
      by_cases h2 : sortValues (c.clues.map (fun x => x.value)) ≠ [100, 200, 300, 400, 500]
      · rw [if_pos h2] at h
        injection h with h3
        rw [← h3]
        decide
      · rw [if_neg h2] at h
        cases hcl : validateClueList c.clues with
        | error e2 =>
          rw [hcl] at h
          injection h with h3
          rw [← h3]
          exact validateClueList_error_ne c.clues e2 hcl
        | ok u =>
          cases u
          rw [hcl] at h
          exact ih h

/-- loadQuestions either returns the bank unchanged, exactly when the
source validation conditions hold, or a non-empty error message. -/
theorem loadQuestions_cases (bank : QuestionBank) :
    (loadQuestions bank = Except.ok bank ∧ codeValidBank bank) ∨
    ((∃ e, loadQuestions bank = Except.error e ∧ e ≠ "") ∧ ¬ codeValidBank bank) := by
  unfold loadQuestions
  by_cases h5 : bank.categories.length ≠ 5
  · right
    rw [if_pos h5]
    refine ⟨⟨"questions.json must contain exactly 5 categories", rfl, by decide⟩, ?_⟩
    intro hv
    exact h5 hv.1
  · rw [if_neg h5]
    push_neg at h5
    cases hvc : validateCategories bank.categories with
    | ok u =>
      cases u
      left
      exact ⟨rfl, h5, (validateCategories_ok_iff bank.categories).mp hvc⟩
    | error e =>
      right
      refine ⟨⟨e, rfl, validateCategories_error_ne bank.categories e hvc⟩, ?_⟩
      intro hv
      have hok := (validateCategories_ok_iff bank.categories).mpr hv.2
      rw [hvc] at hok
      simp at hok

/-- Counterexample to C9 as worded: emptyTitleBank meets every
validation condition the specification lists (5 categories, 5 clues per
category with value multiset 100..500, non-empty question and answer
texts), yet room creation rejects it, because the source validation
additionally requires a truthy category title. -/
theorem create_room_validation_spec_counterexample :
    specValidBank emptyTitleBank
  ∧ createRoomAsHost emptyTitleBank =
      Except.error "Each category must have a title and exactly 5 clues" := by
  constructor
  · unfold specValidBank
    decide
  · rfl

/-- C9 (amended with the non-empty-title condition): room creation
succeeds exactly on banks with 5 categories, each with a non-empty
title and 5 clues whose sorted values are 100,200,300,400,500 and whose
texts are non-empty; on validation failure it aborts with a descriptive
(non-empty) error and no room document is produced; on success the full
initial document is written: phase board, null buzz fields, zeroed
scores, no active clue, no deadline, and 25 used flags all false. -/
theorem create_room_validation (bank : QuestionBank) :
    ((∃ r, createRoomAsHost bank = Except.ok r) ↔ codeValidBank bank)
  ∧ (codeValidBank bank → createRoomAsHost bank = Except.ok initialRoom)
  ∧ (¬ codeValidBank bank → ∃ e, createRoomAsHost bank = Except.error e ∧ e ≠ "")
  ∧ initialRoom.phase = Phase.board
  ∧ initialRoom.activeClueKey = none
  ∧ initialRoom.buzz = clearedBuzz
  ∧ initialRoom.timer.endAtMs = none
  ∧ initialRoom.team1.score = 0 ∧ initialRoom.team2.score = 0
  ∧ makeInitialBoardState.length = 25
  ∧ (∀ p ∈ makeInitialBoardState, p.2 = false)
  ∧ initialRoom.boardUsed = lookupBool makeInitialBoardState := by
  have hcases := loadQuestions_cases bank
  refine ⟨?_, ?_, ?_, rfl, rfl, rfl, rfl, rfl, rfl, by decide, by decide, rfl⟩
  · constructor
    · intro ⟨r, hr⟩
      rcases hcases with ⟨_, hv⟩ | ⟨⟨e, he, _⟩, _⟩
      · exact hv
      · unfold createRoomAsHost at hr
        rw [he] at hr
        simp at hr
    · intro hv
      rcases hcases with ⟨hok, _⟩ | ⟨_, hnv⟩
      · exact ⟨initialRoom, by unfold createRoomAsHost; rw [hok]⟩
      · exact absurd hv hnv
  · intro hv
    rcases hcases with ⟨hok, _⟩ | ⟨_, hnv⟩
    · unfold createRoomAsHost
      rw [hok]
    · exact absurd hv hnv
  · intro hv
    rcases hcases with ⟨_, hv2⟩ | ⟨⟨e, he, hne⟩, _⟩
    · exact absurd hv2 hv
    · exact ⟨e, by unfold createRoomAsHost; rw [he], hne⟩

/-- Witness for C9 (amended): a fully valid bank creates the initial
room document. -/
theorem create_room_validation_witness :
    createRoomAsHost goodBank = Except.ok initialRoom :=
  (create_room_validation goodBank).2.1 (by unfold codeValidBank; decide)

end BookclubJeopardy
